import Mathlib

/-!
Verification development for the book-cover face-merge client
(`gemini_client.py`, `app.py`): image preprocessing, prompt construction,
request/response handling and upload validation, embedded shallowly in Lean.

Python `float` arithmetic in the resize path is modelled exactly: a value is an
arbitrary-precision rational, and every arithmetic operation rounds its exact
result to the nearest binary64 value (53-bit significand, round to nearest,
ties to even). Exponent range is unbounded in the model; overflow and
subnormals do not arise for the magnitudes this program manipulates.
-/

/-- Color mode of a decoded PIL image (the modes relevant to this program). -/
inductive ImageMode
| RGB
| RGBA
| L
| P
deriving DecidableEq, Repr

/-- A decoded raster image: color mode and pixel dimensions. Pixel contents are
not observed by any of the embedded operations, so they are abstracted away. -/
structure PImage where
  mode : ImageMode
  width : Nat
  height : Nat
deriving DecidableEq, Repr

/-- A raised Python exception, reduced to its message (`str(e)`). -/
structure PyExc where
  msg : String
deriving DecidableEq, Repr

/-- The outcome of running a Python expression: a value, or a raised exception
propagating out. -/
abbrev PyResult (α : Type) := Except PyExc α

/-- `try: body except Exception as e: handler(e)` where the handler itself
cannot raise (every handler in this program returns a plain value). -/
def pyTry {α : Type} (body : PyResult α) (handler : PyExc → α) : α :=
  match body with
  | .ok a => a
  | .error e => handler e

/-- `xs[i]` on a Python list: the element, or an `IndexError` raised. -/
def pyListGet {α : Type} (xs : List α) (i : Nat) : PyResult α :=
  match xs.get? i with
  | some a => .ok a
  | none => .error ⟨"IndexError: list index out of range"⟩

/-! ## Exact model of binary64 arithmetic

A float value is carried as an exact, unreduced fraction `num / den` of
machine-unbounded integers, and every arithmetic operation rounds its exact
result to the nearest binary64 value (53-bit significand, round to nearest,
ties to even; exponent range unbounded — overflow and subnormals do not arise
for the magnitudes this program manipulates). Integer pairs are used rather
than `ℚ` so that concrete instances evaluate inside the kernel; `Frac.toQ`
gives the rational semantics used by the proofs. -/

/-- An exact fraction `num / den`; every constructed value has `0 < den`. -/
structure Frac where
  num : ℤ
  den : ℕ
deriving DecidableEq, Repr

/-- The rational value of a fraction. -/
def Frac.toQ (a : Frac) : ℚ := (a.num : ℚ) / (a.den : ℚ)

/-- `⌊log₂ n⌋` for natural `n ≥ 1`, with explicit fuel for structural
recursion (junk value 0 below 1). -/
def log2fuel : ℕ → ℕ → ℕ
| 0, _ => 0
| fuel + 1, n => if n ≤ 1 then 0 else log2fuel fuel (n / 2) + 1

/-- `⌊log₂ n⌋` for natural `n ≥ 1` (junk value 0 below 1). -/
def nlog2 (n : ℕ) : ℕ := log2fuel n n

/-- `a / 2 ^ e` as an exact fraction. -/
def Frac.divPow2 (a : Frac) (e : ℤ) : Frac :=
  if 0 ≤ e then { num := a.num, den := a.den * 2 ^ e.toNat }
  else { num := a.num * 2 ^ (-e).toNat, den := a.den }

/-- `m * 2 ^ e` as an exact fraction. -/
def mulPow2 (m : ℤ) (e : ℤ) : Frac :=
  if 0 ≤ e then { num := m * 2 ^ e.toNat, den := 1 }
  else { num := m, den := 2 ^ (-e).toNat }

/-- `⌊log₂ a⌋` for a positive fraction: the candidate from the numerator and
denominator bit lengths, corrected down by one when it overshoots (`a / 2^c`
is at least 1 exactly when its numerator is at least its denominator). -/
def Frac.qlog2 (a : Frac) : ℤ :=
  let c : ℤ := (nlog2 a.num.toNat : ℤ) - (nlog2 a.den : ℤ)
  let t := a.divPow2 c
  if (t.den : ℤ) ≤ t.num then c else c - 1

/-- Floor of a fraction with positive denominator: Euclidean division. -/
def Frac.floor (a : Frac) : ℤ := a.num / (a.den : ℤ)

/-- Round a fraction to the nearest integer, ties to even (the IEEE 754
default rounding used by Python floats). -/
def Frac.rnde (a : Frac) : ℤ :=
  let f := a.floor
  let r := a.num - f * (a.den : ℤ)
  if 2 * r < (a.den : ℤ) then f
  else if (a.den : ℤ) < 2 * r then f + 1
  else if f % 2 = 0 then f else f + 1

/-- The binary64 value nearest to a positive fraction: scale into
`[2^52, 2^53)`, round the significand to the nearest integer (ties to even),
scale back. -/
def flPos (a : Frac) : Frac :=
  let e : ℤ := a.qlog2 - 52
  mulPow2 ((a.divPow2 e).rnde) e

/-- The binary64 value nearest to a fraction. -/
def fl (x : Frac) : Frac :=
  if x.num = 0 then { num := 0, den := 1 }
  else if x.num < 0 then
    let v := flPos { num := -x.num, den := x.den }
    { num := -v.num, den := v.den }
  else flPos x

/-- Python `a / b` on nonnegative integers (both exactly representable):
the exact quotient, correctly rounded to binary64. -/
def pyDiv (a b : ℕ) : Frac := fl { num := a, den := b }

/-- Python `w * r` where `w` is an integer below `2^53` (so its conversion to
float is exact) and `r` a binary64 value: the exact product, correctly
rounded. -/
def pyMulNat (w : ℕ) (r : Frac) : Frac := fl { num := (w : ℤ) * r.num, den := r.den }

/-- Python `int(x)` on a float: truncation toward zero. -/
def pyIntTrunc (x : Frac) : ℤ :=
  if 0 ≤ x.num then x.floor else -(Frac.floor { num := -x.num, den := x.den })

/-! ## `GeminiImageClient._prepare_image_for_api` -/

/-- `_prepare_image_for_api(image, max_size=1024)`: convert to RGB if the mode
differs, then, if the larger dimension strictly exceeds `max_size`, compute
`ratio = max_size / max(width, height)` in float arithmetic and resize to
`(int(width * ratio), int(height * ratio))` (resampling does not change the
observed mode or dimensions beyond this). -/
def prepare_image_for_api (image : PImage) (max_size : Nat) : PImage :=
  let image := if image.mode ≠ ImageMode.RGB then { image with mode := ImageMode.RGB } else image
  let width := image.width
  let height := image.height
  let m := Nat.max width height
  if max_size < m then
    let ratio := pyDiv max_size m
    let new_width := (pyIntTrunc (pyMulNat width ratio)).toNat
    let new_height := (pyIntTrunc (pyMulNat height ratio)).toNat
    { mode := image.mode, width := new_width, height := new_height }
  else image

/-- One output dimension of the resize branch: `int(w * (max_size / m))` in
float arithmetic, as a natural number. -/
def resizedDim (w max_size m : Nat) : Nat :=
  (pyIntTrunc (pyMulNat w (pyDiv max_size m))).toNat

/-! ## `GeminiImageClient._create_merge_prompt` -/

/-- The fixed base instruction of the merge prompt. -/
def base_prompt : String :=
  "I have two images: a child's face photo and a book cover. Please merge the child's face seamlessly into the book cover design. \n\nRequirements:\n- Integrate the child's face naturally into the book cover\n- Keep the book's title, text, and design elements intact\n- Match the lighting and color tone of the book cover\n- Make the face placement look professional and appealing\n- Ensure the integration appears natural and well-blended"

/-- The style clause stored under key `"natural"`. -/
def natural_clause : String :=
  "Keep the child's face realistic with natural lighting that matches the book cover style."

/-- The style clause stored under key `"artistic"`. -/
def artistic_clause : String :=
  "Apply artistic effects to blend the face with the book's illustration style while keeping it recognizable."

/-- The style clause stored under key `"cartoon"`. -/
def cartoon_clause : String :=
  "Stylize the face to match cartoon or illustrated book aesthetics if the cover has that style."

/-- The `style_additions` dictionary: key lookup returning the clause when the
key is present. -/
def style_additions (key : String) : Option String :=
  if key = "natural" then some natural_clause
  else if key = "artistic" then some artistic_clause
  else if key = "cartoon" then some cartoon_clause
  else none

/-- Trailing instruction appended after the style clause. -/
def prompt_tail : String :=
  "\n\nGenerate the merged book cover image with the child's face integrated."

/-- `_create_merge_prompt(merge_style)`: the base prompt, a bullet with the
clause found under `merge_style` (`dict.get` falling back to the `"natural"`
clause), and the trailing instruction. -/
def create_merge_prompt (merge_style : String) : String :=
  base_prompt ++ "\n- " ++ (style_additions merge_style).getD natural_clause ++ prompt_tail

/-! ## The remote service boundary -/

/-- One element of the `contents` list of a request: a prompt string or an
image. -/
inductive ContentItem
| text (s : String)
| image (img : PImage)
deriving DecidableEq, Repr

/-- A `generate_content` request: model identifier, ordered contents, and the
requested response modalities. -/
structure GenRequest where
  model : String
  contents : List ContentItem
  response_modalities : List String
deriving DecidableEq, Repr

/-- One part of a response candidate's content: optional inline image data
(held here already decoded) and optional text. -/
structure RespPart where
  inline_data : Option PImage
  text : Option String
deriving DecidableEq, Repr

/-- A candidate's content: its ordered list of parts. -/
structure RespContent where
  parts : List RespPart
deriving DecidableEq, Repr

/-- One response candidate. -/
structure Candidate where
  content : RespContent
deriving DecidableEq, Repr

/-- A `generate_content` response: the candidate list. -/
structure GenResponse where
  candidates : List Candidate
deriving DecidableEq, Repr

/-- The remote generative service: takes a request and either answers or
raises. Opaque external collaborator, hence a parameter of every operation. -/
abbrev RemoteService := GenRequest → PyResult GenResponse

/-- The loop `for part in parts: if part.inline_data is not None: return ...`:
first inline image payload, if any. -/
def first_inline_image : List RespPart → Option PImage
| [] => none
| p :: rest =>
  match p.inline_data with
  | some img => some img
  | none => first_inline_image rest

/-- The loop `for part in parts: if part.text is not None: return part.text`:
first text payload, if any. -/
def first_text : List RespPart → Option String
| [] => none
| p :: rest =>
  match p.text with
  | some s => some s
  | none => first_text rest

/-! ## `GeminiImageClient` operations -/

/-- `GeminiImageClient.__init__`: read `GEMINI_API_KEY` from the environment;
a missing or empty value raises `ValueError` before the service handle is
constructed. The result carries the key and the configured model name. -/
structure GeminiClientConfig where
  api_key : String
  model : String
deriving DecidableEq, Repr

/-- Constructor: `os.getenv` returns `none` when the variable is unset;
`if not self.api_key` is true for both `None` and the empty string. -/
def gemini_image_client_init (getenv : String → Option String) :
    PyResult GeminiClientConfig :=
  let api_key := getenv "GEMINI_API_KEY"
  if api_key = none ∨ api_key = some "" then
    .error ⟨"GEMINI_API_KEY not found in environment variables"⟩
  else
    .ok { api_key := api_key.getD "", model := "gemini-2.0-flash-preview-image-generation" }

/-- `merge_face_into_book_cover(face_image, book_cover_image, merge_style)`:
prepare both images, build the style prompt, call the service requesting an
IMAGE response, return the first inline image of the first candidate; `None`
when no inline part exists or anything raised inside the `try`. -/
def merge_face_into_book_cover (svc : RemoteService)
    (face_image book_cover_image : PImage) (merge_style : String) :
    Option PImage :=
  pyTry
    ((svc { model := "gemini-2.0-flash-preview-image-generation",
            contents := [ContentItem.text (create_merge_prompt merge_style),
                         ContentItem.image (prepare_image_for_api face_image 1024),
                         ContentItem.image (prepare_image_for_api book_cover_image 1024)],
            response_modalities := ["IMAGE"] }).bind (fun response =>
      (pyListGet response.candidates 0).bind (fun cand =>
        .ok (first_inline_image cand.content.parts))))
    (fun _ => none)

/-- The fixed prompt of `analyze_images`. -/
def analyze_prompt : String :=
  "Analyze these two images for face merging:\n1. First image: A child's face photo\n2. Second image: A book cover\n\nProvide brief suggestions on:\n- Best placement for the face on the book cover\n- Color/lighting adjustments needed\n- Style compatibility\n- Any potential challenges\n\nKeep the analysis concise and practical."

/-- `analyze_images(face_image, book_cover_image)`: prepare both images, call
the text model, return the first text part, the fixed sentinel when no text
part exists, or an error string when anything raised. -/
def analyze_images (svc : RemoteService) (face_image book_cover_image : PImage) :
    String :=
  pyTry
    ((svc { model := "gemini-2.0-flash-exp",
            contents := [ContentItem.text analyze_prompt,
                         ContentItem.image (prepare_image_for_api face_image 1024),
                         ContentItem.image (prepare_image_for_api book_cover_image 1024)],
            response_modalities := ["TEXT"] }).bind (fun response =>
      (pyListGet response.candidates 0).bind (fun cand =>
        .ok ((first_text cand.content.parts).getD "Unable to analyze images."))))
    (fun e => "Error analyzing images: " ++ e.msg)

/-- `validate_images(face_image, book_cover_image)`: dimension floors, then a
JPEG re-encode of each image to estimate the transmitted size against the
10 MiB ceiling. The encoder (`image.save(..., format='JPEG')`) is the PIL
boundary: it is passed in as a fallible function returning the encoded byte
length. -/
def validate_images (save : PImage → PyResult Nat)
    (face_image book_cover_image : PImage) : Bool × String :=
  pyTry
    (if face_image.width < 100 ∨ face_image.height < 100 then
      .ok (false, "Face image is too small (minimum 100x100 pixels)")
    else if book_cover_image.width < 200 ∨ book_cover_image.height < 200 then
      .ok (false, "Book cover image is too small (minimum 200x200 pixels)")
    else
      (save face_image).bind (fun face_len =>
        if 10 * 1024 * 1024 < face_len then
          .ok (false, "Face image file is too large (max 10MB)")
        else
          (save book_cover_image).bind (fun book_len =>
            if 10 * 1024 * 1024 < book_len then
              .ok (false, "Book cover image file is too large (max 10MB)")
            else
              .ok (true, "Images are suitable for merging"))))
    (fun e => (false, "Error validating images: " ++ e.msg))

/-- PIL's JPEG encoder as used by `validate_images`: saving succeeds for the
three-channel and grayscale modes and raises `OSError` for modes JPEG cannot
hold (RGBA, palette); the produced byte length is abstract, supplied by
`encoded_len`. -/
def pil_jpeg_save (encoded_len : PImage → Nat) (img : PImage) : PyResult Nat :=
  match img.mode with
  | ImageMode.RGB => .ok (encoded_len img)
  | ImageMode.L => .ok (encoded_len img)
  | ImageMode.RGBA => .error ⟨"cannot write mode RGBA as JPEG"⟩
  | ImageMode.P => .error ⟨"cannot write mode P as JPEG"⟩

/-- `test_api_connection()`: build a 100x100 solid probe image, ask the text
model about it, report success when any text part comes back. -/
def test_api_connection (svc : RemoteService) : Bool × String :=
  pyTry
    ((svc { model := "gemini-2.0-flash-exp",
            contents := [ContentItem.text "What color is this image?",
                         ContentItem.image { mode := ImageMode.RGB, width := 100, height := 100 }],
            response_modalities := ["TEXT"] }).bind (fun response =>
      (pyListGet response.candidates 0).bind (fun cand =>
        match first_text cand.content.parts with
        | some _ => .ok (true, "API connection successful")
        | none => .ok (false, "API connection failed - no response"))))
    (fun e => (false, "API connection failed: " ++ e.msg))

/-! ## `app.py` upload validation -/

/-- A Streamlit uploaded file as `validate_uploaded_image` observes it:
its MIME type, its byte size, and the outcome of `Image.open` on it. -/
structure UploadedFile where
  type : String
  size : Nat
  opened : PyResult PImage
deriving Repr

/-- Python `str.title()`: uppercase the first letter of each alphabetic run,
lowercase the rest. -/
def py_title_fold (acc : Bool × List Char) (c : Char) : Bool × List Char :=
  let prev := acc.1
  if c.isAlpha then
    (true, acc.2 ++ [if prev then c.toLower else c.toUpper])
  else
    (false, acc.2 ++ [c])

/-- Python `str.title()` over the whole string. -/
def py_title (s : String) : String :=
  String.mk (s.toList.foldl py_title_fold (false, [])).2

/-- `validate_uploaded_image(uploaded_file, image_type)`: presence, MIME type,
byte-size ceiling, then decode and check both pixel dimensions against 100
(the guard uses 100 for both roles; only the message text switches between
"100x100" and "200x200"). -/
def validate_uploaded_image (uploaded_file : Option UploadedFile)
    (image_type : String) : Bool × String × Option PImage :=
  match uploaded_file with
  | none => (false, "Please upload a " ++ image_type ++ " image", none)
  | some f =>
    if ¬ (f.type = "image/jpeg" ∨ f.type = "image/jpg" ∨ f.type = "image/png") then
      (false, "Please upload a JPEG or PNG image", none)
    else if 10 * 1024 * 1024 < f.size then
      (false, "File size too large. Please upload an image smaller than 10MB", none)
    else
      pyTry
        (f.opened.bind (fun image =>
          if image.width < 100 ∨ image.height < 100 then
            let min_size := if image_type = "face" then "100x100" else "200x200"
            .ok (false, py_title image_type ++ " image too small. Minimum size: " ++ min_size ++ " pixels", none)
          else
            .ok (true, py_title image_type ++ " image uploaded successfully", some image)))
        (fun e => (false, "Error processing " ++ image_type ++ " image: " ++ e.msg, none))

/-! ## Concrete instances used by counterexamples and witnesses -/

/-- Unit roundoff of binary64: `2 ^ (-53)`. -/
def eps : ℚ := 1 / 2 ^ 53

/-- A 50x50 RGB face image (below the documented face minimum). -/
def face50 : PImage := { mode := ImageMode.RGB, width := 50, height := 50 }

/-- A 400x600 RGB book cover image. -/
def book400 : PImage := { mode := ImageMode.RGB, width := 400, height := 600 }

/-- A 300x300 RGB face image. -/
def face300 : PImage := { mode := ImageMode.RGB, width := 300, height := 300 }

/-- A 512x512 image standing for a service-generated result. -/
def generated512 : PImage := { mode := ImageMode.RGB, width := 512, height := 512 }

/-- A service that always answers with one candidate holding one inline image
part carrying `generated512`. -/
def svcInlineImage : RemoteService := fun _ =>
  .ok { candidates := [{ content := { parts := [{ inline_data := some generated512, text := none }] } }] }

/-- A 150x150 RGB image: below the documented 200x200 book-cover minimum. -/
def img150 : PImage := { mode := ImageMode.RGB, width := 150, height := 150 }

/-- A 150x150 PNG upload of 5000 bytes that decodes to `img150`. -/
def bookFile150 : UploadedFile :=
  { type := "image/png", size := 5000, opened := .ok img150 }

/-- A 50x50 PNG upload of 3000 bytes that decodes to `face50`. -/
def faceFile50 : UploadedFile :=
  { type := "image/png", size := 3000, opened := .ok face50 }

/-- A 300x300 RGBA image: passes every dimension rule but cannot be encoded
as JPEG. -/
def faceRGBA : PImage := { mode := ImageMode.RGBA, width := 300, height := 300 }

/-- A 1122x1122 RGB image: the smallest square side for which the float
resize truncates the larger output dimension to 1023. -/
def img1122 : PImage := { mode := ImageMode.RGB, width := 1122, height := 1122 }

/-- A 100x102401 RGB image: accepted by the upload gate, but so elongated that
the resize arithmetic drives the computed width to 0. -/
def imgTall : PImage := { mode := ImageMode.RGB, width := 100, height := 102401 }

/-- A 100x102401 PNG upload of 9000 bytes that decodes to `imgTall`. -/
def tallFile : UploadedFile :=
  { type := "image/png", size := 9000, opened := .ok imgTall }

/-! ## Semantics of the fraction layer -/

theorem Frac.den_posQ {a : Frac} (hd : 0 < a.den) : (0:ℚ) < (a.den : ℚ) := by
  exact_mod_cast hd

theorem Frac.toQ_pos {a : Frac} (hn : 0 < a.num) (hd : 0 < a.den) : 0 < a.toQ :=
  div_pos (by exact_mod_cast hn) (Frac.den_posQ hd)

theorem Frac.num_pos_of_toQ {a : Frac} (hd : 0 < a.den) (h : 0 < a.toQ) : 0 < a.num := by
  by_contra hcon
  push_neg at hcon
  have : a.toQ ≤ 0 :=
    div_nonpos_of_nonpos_of_nonneg (by exact_mod_cast hcon) (le_of_lt (Frac.den_posQ hd))
  linarith

theorem Frac.floor_bracket {a : Frac} (hd : 0 < a.den) :
    (a.floor : ℚ) ≤ a.toQ ∧ a.toQ < a.floor + 1 := by
  have hdQ : (0:ℚ) < (a.den : ℚ) := Frac.den_posQ hd
  have hdZ : ((a.den : ℤ)) ≠ 0 := by exact_mod_cast hd.ne'
  have hsum : (a.num : ℚ) =
      (a.den : ℚ) * ((a.num / (a.den : ℤ) : ℤ) : ℚ) + ((a.num % (a.den : ℤ) : ℤ) : ℚ) := by
    exact_mod_cast (Int.ediv_add_emod a.num (a.den : ℤ)).symm
  have hr0 : (0:ℚ) ≤ ((a.num % (a.den : ℤ) : ℤ) : ℚ) := by
    exact_mod_cast Int.emod_nonneg a.num hdZ
  have hr1 : ((a.num % (a.den : ℤ) : ℤ) : ℚ) < (a.den : ℚ) := by
    exact_mod_cast Int.emod_lt_of_pos a.num (by exact_mod_cast hd)
  have hkey : a.toQ = (a.floor : ℚ) + ((a.num % (a.den : ℤ) : ℤ) : ℚ) / (a.den : ℚ) := by
    rw [Frac.toQ, Frac.floor, hsum]
    field_simp
    ring
  constructor
  · rw [hkey]
    have : (0:ℚ) ≤ ((a.num % (a.den : ℤ) : ℤ) : ℚ) / (a.den : ℚ) := div_nonneg hr0 hdQ.le
    linarith
  · rw [hkey]
    have : ((a.num % (a.den : ℤ) : ℤ) : ℚ) / (a.den : ℚ) < 1 := (div_lt_one hdQ).2 hr1
    linarith

theorem Frac.rnde_close {a : Frac} (hd : 0 < a.den) : |(a.rnde : ℚ) - a.toQ| ≤ 1/2 := by
  have hdQ : (0:ℚ) < (a.den : ℚ) := Frac.den_posQ hd
  have hbr := Frac.floor_bracket hd
  have hkey : a.toQ = (a.floor : ℚ) + ((a.num - a.floor * (a.den : ℤ) : ℤ) : ℚ) / (a.den : ℚ) := by
    rw [Frac.toQ]
    push_cast
    field_simp
  set r : ℤ := a.num - a.floor * (a.den : ℤ) with hrdef
  have hr0 : (0:ℚ) ≤ (r : ℚ) / (a.den : ℚ) := by
    have : (a.floor : ℚ) ≤ a.toQ := hbr.1
    rw [hkey] at this
    linarith
  have hr1 : (r : ℚ) / (a.den : ℚ) < 1 := by
    have : a.toQ < a.floor + 1 := hbr.2
    rw [hkey] at this
    linarith
  rw [Frac.rnde]
  simp only [← hrdef]
  split_ifs with h1 h2 h3
  · -- 2r < den : round down
    have : (r : ℚ) / (a.den : ℚ) < 1/2 := by
      rw [div_lt_iff₀ hdQ]
      have : (2 * r : ℚ) < (a.den : ℚ) := by exact_mod_cast h1
      linarith
    rw [hkey, abs_le]
    constructor <;> simp only [Frac.floor] <;> linarith
  · -- den < 2r : round up
    have : 1/2 < (r : ℚ) / (a.den : ℚ) := by
      rw [lt_div_iff₀ hdQ]
      have : (a.den : ℚ) < (2 * r : ℚ) := by exact_mod_cast h2
      linarith
    rw [hkey, abs_le]
    push_cast
    constructor <;> linarith
  · -- tie, floor even
    have h2r : (2 * r : ℚ) = (a.den : ℚ) := by
      have hle1 : ¬ (2 * r < (a.den : ℤ)) := h1
      have hle2 : ¬ ((a.den : ℤ) < 2 * r) := h2
      push_neg at hle1 hle2
      exact_mod_cast le_antisymm hle2 hle1
    have : (r : ℚ) / (a.den : ℚ) = 1/2 := by
      rw [div_eq_iff hdQ.ne']
      linarith
    rw [hkey, abs_le]
    constructor <;> linarith
  · -- tie, floor odd
    have h2r : (2 * r : ℚ) = (a.den : ℚ) := by
      have hle1 : ¬ (2 * r < (a.den : ℤ)) := h1
      have hle2 : ¬ ((a.den : ℤ) < 2 * r) := h2
      push_neg at hle1 hle2
      exact_mod_cast le_antisymm hle2 hle1
    have : (r : ℚ) / (a.den : ℚ) = 1/2 := by
      rw [div_eq_iff hdQ.ne']
      linarith
    rw [hkey, abs_le]
    push_cast
    constructor <;> linarith

theorem log2fuel_bracket : ∀ fuel n : ℕ, 1 ≤ n → n ≤ fuel →
    2 ^ (log2fuel fuel n) ≤ n ∧ n < 2 ^ (log2fuel fuel n + 1) := by
  intro fuel
  induction fuel with
  | zero => intro n h1 h2; omega
  | succ fuel ih =>
    intro n h1 h2
    rw [log2fuel]
    by_cases hn : n ≤ 1
    · have : n = 1 := le_antisymm hn h1
      subst this
      simp
    · push_neg at hn
      have hhalf1 : 1 ≤ n / 2 := by omega
      have hhalf2 : n / 2 ≤ fuel := by omega
      have hdiv := Nat.div_add_mod n 2
      obtain ⟨hlow, hhigh⟩ := ih (n / 2) hhalf1 hhalf2
      rw [if_neg (by omega)]
      constructor
      · calc 2 ^ (log2fuel fuel (n / 2) + 1) = 2 * 2 ^ (log2fuel fuel (n / 2)) := by ring
        _ ≤ 2 * (n / 2) := by omega
        _ ≤ n := by omega
      · have : n < 2 * (2 ^ (log2fuel fuel (n / 2) + 1)) := by omega
        calc n < 2 * 2 ^ (log2fuel fuel (n / 2) + 1) := this
        _ = 2 ^ (log2fuel fuel (n / 2) + 1 + 1) := by ring
  
theorem nlog2_bracket {n : ℕ} (h : 1 ≤ n) :
    2 ^ (nlog2 n) ≤ n ∧ n < 2 ^ (nlog2 n + 1) :=
  log2fuel_bracket n n h le_rfl

theorem Frac.divPow2_den_pos {a : Frac} (hd : 0 < a.den) (e : ℤ) :
    0 < (a.divPow2 e).den := by
  rw [Frac.divPow2]
  split_ifs <;> simp <;> positivity

theorem Frac.divPow2_toQ {a : Frac} (e : ℤ) :
    (a.divPow2 e).toQ = a.toQ / (2 : ℚ) ^ e := by
  rw [Frac.divPow2]
  split_ifs with h
  · have he : ((e.toNat : ℤ) : ℤ) = e := by omega
    rw [Frac.toQ, Frac.toQ]
    have h2 : ((2:ℚ) ^ e) = (2:ℚ) ^ (e.toNat : ℕ) := by
      rw [← zpow_natCast]
      congr 1
      omega
    rw [h2]
    push_cast
    rw [div_div]
  · have h2 : ((2:ℚ) ^ e) = ((2:ℚ) ^ ((-e).toNat : ℕ))⁻¹ := by
      rw [← zpow_natCast, ← zpow_neg]
      congr 1
      omega
    rw [Frac.toQ, Frac.toQ, h2]
    push_cast
    field_simp

theorem mulPow2_den_pos (m e : ℤ) : 0 < (mulPow2 m e).den := by
  rw [mulPow2]
  split_ifs
  · simp
  · simp only
    positivity

theorem mulPow2_toQ (m e : ℤ) : (mulPow2 m e).toQ = (m : ℚ) * (2 : ℚ) ^ e := by
  rw [mulPow2]
  split_ifs with h
  · have h2 : ((2:ℚ) ^ e) = (2:ℚ) ^ (e.toNat : ℕ) := by
      rw [← zpow_natCast]
      congr 1
      omega
    rw [Frac.toQ, h2]
    push_cast
    simp
  · have h2 : ((2:ℚ) ^ e) = ((2:ℚ) ^ ((-e).toNat : ℕ))⁻¹ := by
      rw [← zpow_natCast, ← zpow_neg]
      congr 1
      omega
    rw [Frac.toQ, h2]
    push_cast
    rw [div_eq_mul_inv]

theorem Frac.qlog2_bracket {a : Frac} (hn : 0 < a.num) (hd : 0 < a.den) :
    (2:ℚ) ^ a.qlog2 ≤ a.toQ ∧ a.toQ < (2:ℚ) ^ (a.qlog2 + 1) := by
  have hdQ : (0:ℚ) < (a.den : ℚ) := Frac.den_posQ hd
  have hnQ : (0:ℚ) < (a.num : ℚ) := by exact_mod_cast hn
  have htoQpos : 0 < a.toQ := Frac.toQ_pos hn hd
  have hnum1 : 1 ≤ a.num.toNat := by omega
  obtain ⟨hl1, hl1'⟩ := nlog2_bracket hnum1
  obtain ⟨hl2, hl2'⟩ := nlog2_bracket (show 1 ≤ a.den from hd)
  set l1 := nlog2 a.num.toNat with hl1def
  set l2 := nlog2 a.den with hl2def
  set c : ℤ := (l1 : ℤ) - (l2 : ℤ) with hcdef
  have hncast : ((a.num.toNat : ℕ) : ℚ) = (a.num : ℚ) := by
    exact_mod_cast congrArg (Int.cast : ℤ → ℚ) (Int.toNat_of_nonneg hn.le)
  have hb1 : (2:ℚ) ^ (l1 : ℕ) ≤ (a.num : ℚ) := by
    rw [← hncast]; exact_mod_cast hl1
  have hb1' : (a.num : ℚ) < (2:ℚ) ^ (l1 + 1 : ℕ) := by
    rw [← hncast]; exact_mod_cast hl1'
  have hb2 : (2:ℚ) ^ (l2 : ℕ) ≤ (a.den : ℚ) := by exact_mod_cast hl2
  have hb2' : (a.den : ℚ) < (2:ℚ) ^ (l2 + 1 : ℕ) := by exact_mod_cast hl2'
  have hupper : a.toQ < (2:ℚ) ^ (c + 1) := by
    have hstep : a.toQ < (2:ℚ) ^ (l1 + 1 : ℕ) / (2:ℚ) ^ (l2 : ℕ) := by
      rw [Frac.toQ]
      gcongr
    have hexp : ((l1 + 1 : ℕ) : ℤ) - ((l2 : ℕ) : ℤ) = c + 1 := by push_cast; ring
    calc a.toQ < (2:ℚ) ^ (l1 + 1 : ℕ) / (2:ℚ) ^ (l2 : ℕ) := hstep
    _ = (2:ℚ) ^ (((l1 + 1 : ℕ) : ℤ) - ((l2 : ℕ) : ℤ)) := (zpow_natCast_sub_natCast₀ two_ne_zero _ _).symm
    _ = (2:ℚ) ^ (c + 1) := by rw [hexp]
  have hlower : (2:ℚ) ^ (c - 1) < a.toQ := by
    have hstep : (2:ℚ) ^ (l1 : ℕ) / (2:ℚ) ^ (l2 + 1 : ℕ) < a.toQ := by
      rw [Frac.toQ]
      have h1 : (2:ℚ) ^ (l1 : ℕ) / (2:ℚ) ^ (l2 + 1 : ℕ) < (2:ℚ) ^ (l1 : ℕ) / (a.den : ℚ) := by
        gcongr
      have h2 : (2:ℚ) ^ (l1 : ℕ) / (a.den : ℚ) ≤ (a.num : ℚ) / (a.den : ℚ) := by
        gcongr
      linarith
    have hexp : ((l1 : ℕ) : ℤ) - ((l2 + 1 : ℕ) : ℤ) = c - 1 := by push_cast; ring
    calc (2:ℚ) ^ (c - 1) = (2:ℚ) ^ (((l1 : ℕ) : ℤ) - ((l2 + 1 : ℕ) : ℤ)) := by rw [hexp]
    _ = (2:ℚ) ^ (l1 : ℕ) / (2:ℚ) ^ (l2 + 1 : ℕ) := zpow_natCast_sub_natCast₀ two_ne_zero _ _
    _ < a.toQ := hstep
  have hcond : (((a.divPow2 c).den : ℤ) ≤ (a.divPow2 c).num) ↔ (2:ℚ) ^ c ≤ a.toQ := by
    have htd : 0 < (a.divPow2 c).den := Frac.divPow2_den_pos hd c
    have htdQ : (0:ℚ) < ((a.divPow2 c).den : ℚ) := Frac.den_posQ htd
    have h1 : (((a.divPow2 c).den : ℤ) ≤ (a.divPow2 c).num) ↔ 1 ≤ (a.divPow2 c).toQ := by
      rw [Frac.toQ, le_div_iff₀ htdQ, one_mul]
      constructor
      · intro h; exact_mod_cast h
      · intro h; exact_mod_cast h
    rw [h1, Frac.divPow2_toQ, le_div_iff₀ (by positivity : (0:ℚ) < (2:ℚ) ^ c), one_mul]
  rw [Frac.qlog2]
  simp only [← hcdef]
  split_ifs with h
  · exact ⟨hcond.1 h, hupper⟩
  · have hnot : ¬ ((2:ℚ) ^ c ≤ a.toQ) := fun hc => h (hcond.2 hc)
    push_neg at hnot
    constructor
    · have : c - 1 + 1 = c := by ring
      linarith [hlower]
    · have : c - 1 + 1 = c := by ring
      rw [this]
      exact hnot

theorem flPos_err {a : Frac} (hn : 0 < a.num) (hd : 0 < a.den) :
    |(flPos a).toQ - a.toQ| ≤ a.toQ * eps := by
  set e : ℤ := a.qlog2 - 52 with hedef
  have hyden : 0 < (a.divPow2 e).den := Frac.divPow2_den_pos hd e
  have hclose := Frac.rnde_close hyden
  have hy : (a.divPow2 e).toQ = a.toQ / (2:ℚ) ^ e := Frac.divPow2_toQ e
  have hp : (0:ℚ) < (2:ℚ) ^ e := by positivity
  have hflPos : (flPos a).toQ = ((a.divPow2 e).rnde : ℚ) * (2:ℚ) ^ e := by
    rw [flPos, ← hedef, mulPow2_toQ]
  have key : (flPos a).toQ - a.toQ = (((a.divPow2 e).rnde : ℚ) - (a.divPow2 e).toQ) * (2:ℚ) ^ e := by
    rw [hflPos, hy]
    field_simp
  rw [key, abs_mul, abs_of_pos hp]
  have step1 : |((a.divPow2 e).rnde : ℚ) - (a.divPow2 e).toQ| * (2:ℚ) ^ e ≤ (1/2) * (2:ℚ) ^ e := by
    gcongr
  have hzsub : (2:ℚ) ^ e = (2:ℚ) ^ a.qlog2 / (2:ℚ) ^ (52 : ℤ) := by
    rw [hedef, zpow_sub₀ (two_ne_zero)]
  have hz52 : (2:ℚ) ^ (52 : ℤ) = (2:ℚ) ^ (52 : ℕ) := by
    rw [← zpow_natCast]
    norm_num
  have step2 : (1/2) * (2:ℚ) ^ e = (2:ℚ) ^ a.qlog2 * eps := by
    rw [hzsub, hz52, eps]
    norm_num
    ring
  have hlog : (2:ℚ) ^ a.qlog2 ≤ a.toQ := (Frac.qlog2_bracket hn hd).1
  have heps : (0:ℚ) ≤ eps := by rw [eps]; positivity
  calc |((a.divPow2 e).rnde : ℚ) - (a.divPow2 e).toQ| * (2:ℚ) ^ e
      ≤ (1/2) * (2:ℚ) ^ e := step1
  _ = (2:ℚ) ^ a.qlog2 * eps := step2
  _ ≤ a.toQ * eps := by gcongr

theorem fl_eq_flPos {x : Frac} (hn : 0 < x.num) : fl x = flPos x := by
  rw [fl, if_neg (by omega), if_neg (by omega)]

theorem fl_den_pos (x : Frac) : 0 < (fl x).den := by
  rw [fl]
  split_ifs with h1 h2
  · norm_num
  · exact mulPow2_den_pos _ _
  · exact mulPow2_den_pos _ _

theorem fl_bounds {x : Frac} (hn : 0 < x.num) (hd : 0 < x.den) :
    x.toQ * (1 - eps) ≤ (fl x).toQ ∧ (fl x).toQ ≤ x.toQ * (1 + eps) := by
  rw [fl_eq_flPos hn]
  have h := flPos_err hn hd
  rw [abs_le] at h
  constructor <;> nlinarith [h.1, h.2]

theorem fl_toQ_pos {x : Frac} (hn : 0 < x.num) (hd : 0 < x.den) : 0 < (fl x).toQ := by
  have h := (fl_bounds hn hd).1
  have hx : 0 < x.toQ := Frac.toQ_pos hn hd
  have heps : eps < 1 := by rw [eps]; norm_num
  nlinarith

theorem fl_num_pos {x : Frac} (hn : 0 < x.num) (hd : 0 < x.den) : 0 < (fl x).num :=
  Frac.num_pos_of_toQ (fl_den_pos x) (fl_toQ_pos hn hd)

theorem eps_nonneg : (0:ℚ) ≤ eps := by rw [eps]; positivity

theorem resize_core (w s M : ℕ) (hw1 : 1 ≤ w) (hs : 1 ≤ s) (hM : s < M) :
    0 < (pyMulNat w (pyDiv s M)).den ∧
    0 ≤ (pyMulNat w (pyDiv s M)).num ∧
    ((w:ℚ) * s / M) * (1 - eps) ^ 2 ≤ (pyMulNat w (pyDiv s M)).toQ ∧
    (pyMulNat w (pyDiv s M)).toQ ≤ ((w:ℚ) * s / M) * (1 + eps) ^ 2 := by
  have hM1 : 0 < M := by omega
  have hMQ : (0:ℚ) < (M:ℚ) := by exact_mod_cast hM1
  have hwQ : (0:ℚ) < (w:ℚ) := by exact_mod_cast hw1
  have hsQ : (0:ℚ) < (s:ℚ) := by exact_mod_cast hs
  set x : Frac := { num := (s:ℤ), den := M } with hxdef
  have hxnum : 0 < x.num := by
    rw [hxdef]
    show (0:ℤ) < (s:ℤ)
    exact_mod_cast hs
  have hxden : 0 < x.den := hM1
  have hxtoQ : x.toQ = (s:ℚ) / (M:ℚ) := by
    rw [hxdef]
    simp [Frac.toQ]
  set r := pyDiv s M with hrdef
  have hreq : r = fl x := rfl
  have hrden : 0 < r.den := by rw [hreq]; exact fl_den_pos x
  have hrnum : 0 < r.num := by rw [hreq]; exact fl_num_pos hxnum hxden
  have hrb := fl_bounds hxnum hxden
  rw [← hreq, hxtoQ] at hrb
  set b : Frac := { num := (w:ℤ) * r.num, den := r.den } with hbdef
  have hbnum : 0 < b.num := by rw [hbdef]; exact mul_pos (by exact_mod_cast hw1) hrnum
  have hbden : 0 < b.den := hrden
  have hbtoQ : b.toQ = (w:ℚ) * r.toQ := by
    rw [hbdef, Frac.toQ, Frac.toQ]
    push_cast
    ring
  have hpdef : pyMulNat w r = fl b := rfl
  have hpden : 0 < (fl b).den := fl_den_pos b
  have hpnum : 0 ≤ (fl b).num := (fl_num_pos hbnum hbden).le
  have hpb := fl_bounds hbnum hbden
  have hudiv : (w:ℚ) * s / M = (w:ℚ) * ((s:ℚ) / (M:ℚ)) := by ring
  refine ⟨by rw [hpdef]; exact hpden, by rw [hpdef]; exact hpnum, ?_, ?_⟩
  · rw [hpdef, hudiv]
    have h1 : (w:ℚ) * ((s:ℚ)/(M:ℚ) * (1 - eps)) ≤ b.toQ := by
      rw [hbtoQ]
      gcongr
      · exact hrb.1
    have heps1 : (0:ℚ) ≤ 1 - eps := by rw [eps]; norm_num
    nlinarith [hpb.1, h1, mul_pos hwQ (div_pos hsQ hMQ)]
  · rw [hpdef, hudiv]
    have h1 : b.toQ ≤ (w:ℚ) * ((s:ℚ)/(M:ℚ) * (1 + eps)) := by
      rw [hbtoQ]
      gcongr
      · exact hrb.2
    have heps1 : (0:ℚ) ≤ 1 + eps := by rw [eps]; norm_num
    nlinarith [hpb.2, h1, mul_pos hwQ (div_pos hsQ hMQ)]

theorem resizedDim_zero (s M : ℕ) : resizedDim 0 s M = 0 := by
  simp [resizedDim, pyMulNat, fl, pyIntTrunc, Frac.floor]

theorem resizedDim_bounds (w s M : ℕ) (hs : 1 ≤ s) (hs50 : s ≤ 2 ^ 50)
    (hM : s < M) (hw : w ≤ M) :
    ((resizedDim w s M : ℚ) ≤ (w : ℚ) * s / M + 1/2) ∧
    ((w : ℚ) * s / M - 3/2 < (resizedDim w s M : ℚ)) ∧
    resizedDim w s M ≤ s := by
  have hM1 : 0 < M := by omega
  have hMQ : (0:ℚ) < (M:ℚ) := by exact_mod_cast hM1
  by_cases hw0 : w = 0
  · subst hw0
    rw [resizedDim_zero]
    norm_num
  · have hw1 : 1 ≤ w := by omega
    obtain ⟨hpden, hpnum, hlow, hhigh⟩ := resize_core w s M hw1 hs hM
    set p := pyMulNat w (pyDiv s M) with hpdef
    set t : ℚ := (w:ℚ) * s / M with htdef
    have ht_pos : 0 < t := by rw [htdef]; positivity
    have ht_le_s : t ≤ (s:ℚ) := by
      rw [htdef, div_le_iff₀ hMQ]
      have hwM : (w:ℚ) ≤ (M:ℚ) := by exact_mod_cast hw
      have hs0 : (0:ℚ) ≤ (s:ℚ) := by positivity
      nlinarith
    have hsQ50 : (s:ℚ) ≤ 2 ^ 50 := by exact_mod_cast hs50
    have habs : |p.toQ - t| < 1/2 := by
      rw [abs_lt]
      have hk : (2:ℚ) ^ 50 * (2 * eps + eps ^ 2) < 1/2 := by rw [eps]; norm_num
      have hkt : t * (2 * eps + eps ^ 2) < 1/2 := by
        have heps' : (0:ℚ) < 2 * eps + eps ^ 2 := by rw [eps]; norm_num
        nlinarith
      constructor <;> nlinarith [eps_nonneg]
    have hbr := Frac.floor_bracket hpden
    have hptrunc : pyIntTrunc p = p.floor := by rw [pyIntTrunc, if_pos hpnum]
    have hfl0 : 0 ≤ p.floor := by
      by_contra hcon
      push_neg at hcon
      have h1 : (p.floor : ℚ) + 1 ≤ 0 := by
        have : p.floor + 1 ≤ 0 := by omega
        exact_mod_cast this
      have h2 : 0 ≤ p.toQ := by
        rw [Frac.toQ]
        have : (0:ℚ) ≤ (p.num : ℚ) := by exact_mod_cast hpnum
        positivity
      linarith [hbr.2]
    have hcast : ((resizedDim w s M : ℕ) : ℚ) = (p.floor : ℚ) := by
      rw [resizedDim, ← hpdef, hptrunc]
      exact_mod_cast congrArg (Int.cast : ℤ → ℚ) (Int.toNat_of_nonneg hfl0)
    rw [abs_lt] at habs
    refine ⟨?_, ?_, ?_⟩
    · rw [hcast]; linarith [hbr.1]
    · rw [hcast]; linarith [hbr.2]
    · have hQ : ((resizedDim w s M : ℕ) : ℚ) < (s:ℚ) + 1 := by
        rw [hcast]; linarith [hbr.1]
      have : resizedDim w s M < s + 1 := by exact_mod_cast hQ
      omega

theorem resizedDim_of_max (s M : ℕ) (hs : 1 ≤ s) (hs50 : s ≤ 2 ^ 50) (hM : s < M) :
    s - 1 ≤ resizedDim M s M ∧ resizedDim M s M ≤ s := by
  obtain ⟨h1, h2, h3⟩ := resizedDim_bounds M s M hs hs50 hM le_rfl
  have hMQ : (0:ℚ) < (M:ℚ) := by
    have : 0 < M := by omega
    exact_mod_cast this
  have ht : (M:ℚ) * s / M = (s:ℚ) := by field_simp
  rw [ht] at h1 h2
  refine ⟨?_, h3⟩
  by_contra hcon
  push_neg at hcon
  have hd2 : resizedDim M s M + 2 ≤ s := by omega
  have : ((resizedDim M s M : ℕ) : ℚ) + 2 ≤ (s:ℚ) := by exact_mod_cast hd2
  linarith

theorem resizedDim_pos (w s M : ℕ) (hs : 1 ≤ s) (hM : s < M) (hM50 : M ≤ 2 ^ 50)
    (hcond : M < s * w) : 1 ≤ resizedDim w s M := by
  have hw1 : 1 ≤ w := by
    rcases Nat.eq_zero_or_pos w with h0 | h0
    · subst h0
      rw [Nat.mul_zero] at hcond
      omega
    · exact h0
  have hM1 : 0 < M := by omega
  have hMQ : (0:ℚ) < (M:ℚ) := by exact_mod_cast hM1
  obtain ⟨hpden, hpnum, hlow, hhigh⟩ := resize_core w s M hw1 hs hM
  set p := pyMulNat w (pyDiv s M) with hpdef
  set t : ℚ := (w:ℚ) * s / M with htdef
  have hts : (M:ℚ) + 1 ≤ (s:ℚ) * w := by exact_mod_cast hcond
  have htlow : 1 + 1 / (M:ℚ) ≤ t := by
    rw [htdef, le_div_iff₀ hMQ]
    field_simp
    nlinarith
  have hM50Q : (M:ℚ) ≤ 2 ^ 50 := by exact_mod_cast hM50
  have hMinv : 1 / (2:ℚ) ^ 50 ≤ 1 / (M:ℚ) := by
    gcongr
  have hone : (1:ℚ) < (1 + 1 / (2:ℚ) ^ 50) * (1 - eps) ^ 2 := by rw [eps]; norm_num
  have hstep : (1 + 1 / (2:ℚ) ^ 50) * (1 - eps) ^ 2 ≤ t * (1 - eps) ^ 2 := by
    have heps1 : (0:ℚ) ≤ (1 - eps) ^ 2 := sq_nonneg _
    nlinarith
  have hp1 : 1 < p.toQ := by linarith
  have hbr := Frac.floor_bracket hpden
  have hfl1 : 1 ≤ p.floor := by
    by_contra hcon
    push_neg at hcon
    have h0 : p.floor ≤ 0 := by omega
    have : (p.floor : ℚ) + 1 ≤ 1 := by
      have : p.floor + 1 ≤ 1 := by omega
      exact_mod_cast this
    linarith [hbr.2]
  have hptrunc : pyIntTrunc p = p.floor := by rw [pyIntTrunc, if_pos hpnum]
  rw [resizedDim, ← hpdef, hptrunc]
  omega

theorem prepare_eq_resize (img : PImage) (s : ℕ) (h : s < Nat.max img.width img.height) :
    prepare_image_for_api img s =
      { mode := ImageMode.RGB,
        width := resizedDim img.width s (Nat.max img.width img.height),
        height := resizedDim img.height s (Nat.max img.width img.height) } := by
  by_cases hm : img.mode = ImageMode.RGB <;>
    simp [prepare_image_for_api, hm, h, resizedDim]

theorem prepare_eq_noresize (img : PImage) (s : ℕ) (h : ¬ s < Nat.max img.width img.height) :
    (prepare_image_for_api img s).width = img.width ∧
    (prepare_image_for_api img s).height = img.height := by
  by_cases hm : img.mode = ImageMode.RGB <;> simp [prepare_image_for_api, hm, h]

theorem prepare_mode (img : PImage) (s : ℕ) :
    (prepare_image_for_api img s).mode = ImageMode.RGB := by
  by_cases hm : img.mode = ImageMode.RGB <;>
    by_cases hr : s < Nat.max img.width img.height <;>
      simp [prepare_image_for_api, hm, hr]

theorem prepare_noop (img : PImage) (s : ℕ) (hm : img.mode = ImageMode.RGB)
    (hle : Nat.max img.width img.height ≤ s) : prepare_image_for_api img s = img := by
  simp [prepare_image_for_api, hm, Nat.not_lt.2 hle]

theorem prepare_max_le (img : PImage) (s : ℕ) (hs : 1 ≤ s) (hs50 : s ≤ 2 ^ 50) :
    Nat.max (prepare_image_for_api img s).width (prepare_image_for_api img s).height ≤ s := by
  by_cases hr : s < Nat.max img.width img.height
  · rw [prepare_eq_resize img s hr]
    have h1 := (resizedDim_bounds img.width s _ hs hs50 hr (Nat.le_max_left _ _)).2.2
    have h2 := (resizedDim_bounds img.height s _ hs hs50 hr (Nat.le_max_right _ _)).2.2
    exact Nat.max_le.2 ⟨h1, h2⟩
  · obtain ⟨hw, hh⟩ := prepare_eq_noresize img s hr
    rw [hw, hh]
    omega

theorem resizedDim_abs (w s M : ℕ) (hs : 1 ≤ s) (hs50 : s ≤ 2 ^ 50)
    (hM : s < M) (hw : w ≤ M) :
    |(resizedDim w s M : ℚ) - (w : ℚ) * s / M| < 3/2 := by
  obtain ⟨h1, h2, _⟩ := resizedDim_bounds w s M hs hs50 hM hw
  rw [abs_lt]
  constructor <;> linarith

/-! ## Claim theorems -/

/-- C1: the spec claims the upload gate rejects any image below its
role-specific minimum (200x200 for book covers) with a reason naming that
minimum, and in particular rejects a 150x150 book cover. The code guards both
roles with 100, so the 150x150 book upload is accepted — contradicting the
gate's own rejection text (which names "200x200" for books) and the sibling
check `validate_images`, which does reject the same 150x150 image naming the
200x200 minimum. This theorem evaluates both functions at that input. -/
theorem c1_book_150_accepted :
    validate_uploaded_image (some bookFile150) "book" =
      (true, "Book image uploaded successfully", some img150) ∧
    validate_images (fun _ => .ok 1000) face300 img150 =
      (false, "Book cover image is too small (minimum 200x200 pixels)") := by
  constructor
  · decide
  · decide

/-- C2 counterexample: the 1122x1122 image has larger dimension above 1024,
yet after `_prepare_image_for_api` the larger output dimension is 1023, not
1024: `int(1122 * (1024/1122))` truncates the float product
`1023.9999999999999` down. -/
theorem c2_counterexample :
    1024 < Nat.max img1122.width img1122.height ∧
    Nat.max (prepare_image_for_api img1122 1024).width
        (prepare_image_for_api img1122 1024).height ≠ 1024 := by
  constructor
  · decide
  · decide

/-- C2 (amended): for every image whose larger dimension `M` exceeds
`max_size` (with `1 ≤ max_size ≤ 2^50`), the output's larger dimension is
`max_size` or `max_size - 1` — float truncation can lose exactly one pixel —
and each output dimension is within one pixel (3/2 in the exact order) of the
exactly scaled value `w * max_size / M`, so the aspect ratio is preserved
within one pixel of exact rounding. -/
theorem c2_resize_dims (img : PImage) (s : ℕ) (hs : 1 ≤ s) (hs50 : s ≤ 2 ^ 50)
    (hgt : s < Nat.max img.width img.height) :
    (s - 1 ≤ Nat.max (prepare_image_for_api img s).width
        (prepare_image_for_api img s).height ∧
      Nat.max (prepare_image_for_api img s).width
        (prepare_image_for_api img s).height ≤ s) ∧
    |((prepare_image_for_api img s).width : ℚ) -
        (img.width : ℚ) * s / (Nat.max img.width img.height : ℚ)| < 3/2 ∧
    |((prepare_image_for_api img s).height : ℚ) -
        (img.height : ℚ) * s / (Nat.max img.width img.height : ℚ)| < 3/2 := by
  rw [prepare_eq_resize img s hgt]
  have hbw := resizedDim_bounds img.width s _ hs hs50 hgt (Nat.le_max_left img.width img.height)
  have hbh := resizedDim_bounds img.height s _ hs hs50 hgt (Nat.le_max_right img.width img.height)
  refine ⟨⟨?_, Nat.max_le.2 ⟨hbw.2.2, hbh.2.2⟩⟩,
    resizedDim_abs img.width s _ hs hs50 hgt (Nat.le_max_left img.width img.height),
    resizedDim_abs img.height s _ hs hs50 hgt (Nat.le_max_right img.width img.height)⟩
  rcases Nat.le_total img.width img.height with hcase | hcase
  · have hMeq : Nat.max img.width img.height = img.height := Nat.max_eq_right hcase
    have hfull := (resizedDim_of_max s (Nat.max img.width img.height) hs hs50 hgt).1
    rw [hMeq] at hfull
    calc s - 1 ≤ resizedDim img.height s img.height := hfull
    _ = resizedDim img.height s (Nat.max img.width img.height) := by rw [hMeq]
    _ ≤ Nat.max (resizedDim img.width s (Nat.max img.width img.height))
          (resizedDim img.height s (Nat.max img.width img.height)) := Nat.le_max_right _ _
  · have hMeq : Nat.max img.width img.height = img.width := Nat.max_eq_left hcase
    have hfull := (resizedDim_of_max s (Nat.max img.width img.height) hs hs50 hgt).1
    rw [hMeq] at hfull
    calc s - 1 ≤ resizedDim img.width s img.width := hfull
    _ = resizedDim img.width s (Nat.max img.width img.height) := by rw [hMeq]
    _ ≤ Nat.max (resizedDim img.width s (Nat.max img.width img.height))
          (resizedDim img.height s (Nat.max img.width img.height)) := Nat.le_max_left _ _

/-- C2 witness: the amended theorem applied to the concrete 1122x1122 image at
`max_size = 1024`. -/
theorem c2_resize_dims_witness :
    1024 - 1 ≤ Nat.max (prepare_image_for_api img1122 1024).width
        (prepare_image_for_api img1122 1024).height :=
  ((c2_resize_dims img1122 1024 (by decide) (by norm_num) (by decide)).1).1

/-- C3: `_prepare_image_for_api` is idempotent at a fixed `max_size` (taken in
the program's operating range `1 ≤ max_size ≤ 2^50`; every call site uses the
default 1024), and it is a no-op on an image already in RGB whose larger
dimension does not exceed `max_size`. -/
theorem c3_prepare_idempotent (img : PImage) (s : ℕ) (hs : 1 ≤ s) (hs50 : s ≤ 2 ^ 50) :
    prepare_image_for_api (prepare_image_for_api img s) s = prepare_image_for_api img s ∧
    (img.mode = ImageMode.RGB → Nat.max img.width img.height ≤ s →
      prepare_image_for_api img s = img) := by
  refine ⟨?_, fun hm hle => prepare_noop img s hm hle⟩
  exact prepare_noop _ s (prepare_mode img s) (prepare_max_le img s hs hs50)

/-- C3 witness: idempotence on the concrete 1122x1122 image (which is
resized) and the no-op on the concrete 300x300 RGB image. -/
theorem c3_prepare_idempotent_witness :
    prepare_image_for_api (prepare_image_for_api img1122 1024) 1024 =
      prepare_image_for_api img1122 1024 ∧
    prepare_image_for_api face300 1024 = face300 :=
  ⟨(c3_prepare_idempotent img1122 1024 (by decide) (by norm_num)).1,
   (c3_prepare_idempotent face300 1024 (by decide) (by norm_num)).2 rfl (by decide)⟩

theorem first_inline_image_none {parts : List RespPart}
    (h : ∀ p ∈ parts, p.inline_data = none) : first_inline_image parts = none := by
  induction parts with
  | nil => rfl
  | cons p rest ih =>
    rw [first_inline_image]
    have hp : p.inline_data = none := h p (List.mem_cons_self p rest)
    rw [hp]
    exact ih (fun q hq => h q (List.mem_cons_of_mem p hq))

theorem first_inline_image_first {pre : List RespPart} {img : PImage}
    {t : Option String} {rest : List RespPart}
    (h : ∀ p ∈ pre, p.inline_data = none) :
    first_inline_image (pre ++ { inline_data := some img, text := t } :: rest) = some img := by
  induction pre with
  | nil => rfl
  | cons p pre ih =>
    rw [List.cons_append, first_inline_image]
    have hp : p.inline_data = none := h p (List.mem_cons_self p pre)
    rw [hp]
    exact ih (fun q hq => h q (List.mem_cons_of_mem p hq))

set_option maxRecDepth 100000 in
/-- C4: `_create_merge_prompt` is a pure function of the style string: the
three known styles produce three pairwise distinct strings, each the fixed
base instruction followed by exactly that style's clause and the fixed tail;
every other style value falls back to the `"natural"` clause, producing
exactly the `"natural"` prompt. -/
theorem c4_merge_prompt (sty : String) (h1 : sty ≠ "natural") (h2 : sty ≠ "artistic")
    (h3 : sty ≠ "cartoon") :
    create_merge_prompt "natural" = base_prompt ++ "\n- " ++ natural_clause ++ prompt_tail ∧
    create_merge_prompt "artistic" = base_prompt ++ "\n- " ++ artistic_clause ++ prompt_tail ∧
    create_merge_prompt "cartoon" = base_prompt ++ "\n- " ++ cartoon_clause ++ prompt_tail ∧
    create_merge_prompt "natural" ≠ create_merge_prompt "artistic" ∧
    create_merge_prompt "natural" ≠ create_merge_prompt "cartoon" ∧
    create_merge_prompt "artistic" ≠ create_merge_prompt "cartoon" ∧
    create_merge_prompt sty = create_merge_prompt "natural" := by
  refine ⟨by decide, by decide, by decide, by decide, by decide, by decide, ?_⟩
  simp [create_merge_prompt, style_additions, h1, h2, h3]

/-- C4 witness: an unrecognized style value yields the `"natural"` prompt. -/
theorem c4_merge_prompt_witness :
    create_merge_prompt "watercolor" = create_merge_prompt "natural" :=
  (c4_merge_prompt "watercolor" (by decide) (by decide)
    (by decide)).2.2.2.2.2.2

/-- C5: when the remote response holds no inline image part — whether its
first candidate's part list is inline-free (including empty) or the candidate
list itself is empty — merge returns `none` rather than raising; when some
inline image part is present, merge returns the image decoded from the first
such part. -/
theorem c5_merge_no_inline (face book : PImage) (sty : String) (parts : List RespPart)
    (hno : ∀ p ∈ parts, p.inline_data = none) :
    merge_face_into_book_cover
        (fun _ => .ok { candidates := [{ content := { parts := parts } }] })
        face book sty = none ∧
    merge_face_into_book_cover (fun _ => .ok { candidates := [] }) face book sty = none ∧
    (∀ (img : PImage) (t : Option String) (rest : List RespPart),
      merge_face_into_book_cover
        (fun _ => .ok { candidates := [{ content :=
            { parts := parts ++ { inline_data := some img, text := t } :: rest } }] })
        face book sty = some img) := by
  refine ⟨?_, rfl, ?_⟩
  · show pyTry (Except.ok (first_inline_image parts)) (fun _ => none) = none
    rw [first_inline_image_none hno]
    rfl
  · intro img t rest
    show pyTry (Except.ok (first_inline_image
        (parts ++ { inline_data := some img, text := t } :: rest))) (fun _ => none) = some img
    rw [first_inline_image_first hno]
    rfl

/-- C5 witness: a response whose only part is text-only yields `none`; with an
inline image part after it, merge returns that image. -/
theorem c5_merge_no_inline_witness :
    merge_face_into_book_cover
      (fun _ => .ok { candidates := [{ content :=
          { parts := [{ inline_data := none, text := some "no image here" }] } }] })
      face300 book400 "natural" = none ∧
    merge_face_into_book_cover
      (fun _ => .ok { candidates := [{ content :=
          { parts := [{ inline_data := none, text := some "no image here" },
                      { inline_data := some generated512, text := none }] } }] })
      face300 book400 "natural" = some generated512 := by
  have h := c5_merge_no_inline face300 book400 "natural"
    [{ inline_data := none, text := some "no image here" }] (by decide)
  exact ⟨h.1, h.2.2 generated512 none []⟩

/-- C6: every exception raised by the remote service (or, for
`validate_images`, by the JPEG encoder) inside any of the four operations is
caught there and converted into the operation's structured failure value —
`none` for merge, an error string for analyze, `(false, message)` pairs for
the other two — rather than propagating; each operation is a total function
into its plain result type. -/
theorem c6_exceptions_converted (e : PyExc) (face book : PImage) (sty : String) :
    merge_face_into_book_cover (fun _ => .error e) face book sty = none ∧
    analyze_images (fun _ => .error e) face book = "Error analyzing images: " ++ e.msg ∧
    test_api_connection (fun _ => .error e) = (false, "API connection failed: " ++ e.msg) ∧
    (100 ≤ face.width → 100 ≤ face.height → 200 ≤ book.width → 200 ≤ book.height →
      validate_images (fun _ => .error e) face book =
        (false, "Error validating images: " ++ e.msg)) := by
  refine ⟨rfl, rfl, rfl, ?_⟩
  intro h1 h2 h3 h4
  have hf : ¬ (face.width < 100 ∨ face.height < 100) := by omega
  have hb : ¬ (book.width < 200 ∨ book.height < 200) := by omega
  simp [validate_images, hf, hb, pyTry, Except.bind]

/-- C6 witness: the conversion applied at a concrete exception and concrete
valid-size images. -/
theorem c6_exceptions_converted_witness :
    validate_images (fun _ => .error { msg := "boom" }) face300 book400 =
      (false, "Error validating images: " ++ "boom") :=
  (c6_exceptions_converted { msg := "boom" } face300 book400 "natural").2.2.2
    (by decide) (by decide) (by decide) (by decide)

/-- C7 counterexample: `merge_face_into_book_cover` performs no dimension
check: called directly with a 50x50 face it completes the remote call and
returns the service's image; with a failing service it returns `none` — the
outcome depends on the remote call, so an invocation does occur, contradicting
the claim that no remote call is attempted for such an input. -/
theorem c7_counterexample :
    merge_face_into_book_cover svcInlineImage face50 book400 "natural" = some generated512 ∧
    merge_face_into_book_cover (fun _ => .error { msg := "network unreachable" })
      face50 book400 "natural" = none :=
  ⟨rfl, rfl⟩

/-- C7 (amended): the rejection of a 50x50 face happens upstream of merge: the
upload gate `validate_uploaded_image` rejects it naming the 100x100 minimum
(so the app never hands it to merge), and `validate_images` rejects it too;
`merge_face_into_book_cover` itself performs no dimension check and, called
directly with the 50x50 face, completes a remote call and returns its result. -/
theorem c7_gate_rejects_small_face :
    (validate_uploaded_image (some faceFile50) "face").1 = false ∧
    (validate_uploaded_image (some faceFile50) "face").2.1 =
      "Face image too small. Minimum size: 100x100 pixels" ∧
    validate_images (fun _ => .ok 1000) face50 book400 =
      (false, "Face image is too small (minimum 100x100 pixels)") ∧
    merge_face_into_book_cover svcInlineImage face50 book400 "natural" = some generated512 := by
  refine ⟨by decide, by decide, by decide, rfl⟩

/-- C8: when the credential variable is absent from the environment, client
construction fails immediately with the configuration `ValueError`; the error
is produced before any service handle exists (the constructor takes no service
parameter at all), so no network call can occur. -/
theorem c8_missing_key (getenv : String → Option String)
    (h : getenv "GEMINI_API_KEY" = none) :
    gemini_image_client_init getenv =
      .error { msg := "GEMINI_API_KEY not found in environment variables" } := by
  simp [gemini_image_client_init, h]

/-- C8 witness: the empty environment. -/
theorem c8_missing_key_witness :
    gemini_image_client_init (fun _ => none) =
      .error { msg := "GEMINI_API_KEY not found in environment variables" } :=
  c8_missing_key (fun _ => none) rfl

/-- C9 counterexample: the 100x102401 upload passes `validate_uploaded_image`
(both dimensions are at least 100), its larger dimension exceeds 1024, yet the
resize arithmetic computes output width `int(100 * (1024/102401)) = 0` — not a
positive dimension. -/
theorem c9_counterexample :
    (validate_uploaded_image (some tallFile) "face").1 = true ∧
    1024 < Nat.max imgTall.width imgTall.height ∧
    (prepare_image_for_api imgTall 1024).width = 0 := by
  refine ⟨by decide, by decide, by decide⟩

/-- C9 (amended): in this embedding `_prepare_image_for_api` is a total
function (the dimension arithmetic never fails), and both output dimensions
are positive whenever the aspect ratio is moderate relative to `max_size`:
`max(w,h) < max_size * min(w,h)` (with `1 ≤ max_size` and `max(w,h) ≤ 2^50`).
Gate-accepted images with extreme aspect ratio (such as 100x102401) violate
that bound and get a computed dimension of 0, so the unrestricted claim fails. -/
theorem c9_prepare_positive_dims (img : PImage) (s : ℕ) (hs : 1 ≤ s)
    (hM50 : Nat.max img.width img.height ≤ 2 ^ 50)
    (hcond : Nat.max img.width img.height < s * Nat.min img.width img.height) :
    1 ≤ (prepare_image_for_api img s).width ∧
    1 ≤ (prepare_image_for_api img s).height := by
  have hmin1 : 1 ≤ Nat.min img.width img.height := by
    rcases Nat.eq_zero_or_pos (Nat.min img.width img.height) with h0 | h0
    · rw [h0, Nat.mul_zero] at hcond
      omega
    · exact h0
  by_cases hr : s < Nat.max img.width img.height
  · rw [prepare_eq_resize img s hr]
    constructor
    · apply resizedDim_pos img.width s _ hs hr hM50
      calc Nat.max img.width img.height < s * Nat.min img.width img.height := hcond
      _ ≤ s * img.width := Nat.mul_le_mul_left s (Nat.min_le_left _ _)
    · apply resizedDim_pos img.height s _ hs hr hM50
      calc Nat.max img.width img.height < s * Nat.min img.width img.height := hcond
      _ ≤ s * img.height := Nat.mul_le_mul_left s (Nat.min_le_right _ _)
  · obtain ⟨hw, hh⟩ := prepare_eq_noresize img s hr
    rw [hw, hh]
    exact ⟨le_trans hmin1 (Nat.min_le_left _ _), le_trans hmin1 (Nat.min_le_right _ _)⟩

/-- C9 witness: the amended positivity guarantee at the concrete 1122x1122
image with `max_size = 1024`. -/
theorem c9_prepare_positive_dims_witness :
    1 ≤ (prepare_image_for_api img1122 1024).width :=
  (c9_prepare_positive_dims img1122 1024 (by decide) (by decide) (by decide)).1

/-- C10: `validate_images` estimates transmitted size by re-encoding each
image as JPEG through the PIL boundary (modelled as a fallible byte-length
function applied to both images after the dimension floors); it always
returns a `(Bool, message)` pair with a non-empty message and, being a total
function, never raises — any encoder exception is converted into
`(false, "Error validating images: ...")`. In particular an RGBA image, which
JPEG cannot encode, yields a `(false, error)` outcome even when its dimensions
and sizes satisfy every stated rule. -/
theorem c10_validate_images_total (save : PImage → PyResult Nat)
    (face book : PImage) (len : PImage → Nat) :
    ((validate_images save face book).2 ≠ "") ∧
    (face.mode = ImageMode.RGBA → 100 ≤ face.width → 100 ≤ face.height →
      200 ≤ book.width → 200 ≤ book.height →
      validate_images (pil_jpeg_save len) face book =
        (false, "Error validating images: " ++ "cannot write mode RGBA as JPEG")) := by
  constructor
  · by_cases h1 : face.width < 100 ∨ face.height < 100
    · simp [validate_images, h1, pyTry]
    · by_cases h2 : book.width < 200 ∨ book.height < 200
      · simp [validate_images, h1, h2, pyTry]
      · cases hsf : save face with
        | error e =>
          simp [validate_images, h1, h2, hsf, pyTry, Except.bind]
          intro hcon
          have := congrArg String.length hcon
          simp [String.length_append] at this
          exact absurd this.1 (by decide)
        | ok n =>
          by_cases h3 : 10 * 1024 * 1024 < n
          · simp [validate_images, h1, h2, hsf, h3, pyTry, Except.bind]
          · cases hsb : save book with
            | error e =>
              simp [validate_images, h1, h2, hsf, h3, hsb, pyTry, Except.bind]
              intro hcon
              have := congrArg String.length hcon
              simp [String.length_append] at this
              exact absurd this.1 (by decide)
            | ok m =>
              by_cases h4 : 10 * 1024 * 1024 < m
              · simp [validate_images, h1, h2, hsf, h3, hsb, h4, pyTry, Except.bind]
              · simp [validate_images, h1, h2, hsf, h3, hsb, h4, pyTry, Except.bind]
  · intro hmode h1 h2 h3 h4
    have hf : ¬ (face.width < 100 ∨ face.height < 100) := by omega
    have hb : ¬ (book.width < 200 ∨ book.height < 200) := by omega
    simp [validate_images, hf, hb, pil_jpeg_save, hmode, pyTry, Except.bind]

/-- C10 witness: the 300x300 RGBA face with a 400x600 RGB book cover and small
encoded sizes yields the JPEG-encoding failure outcome. -/
theorem c10_validate_images_total_witness :
    validate_images (pil_jpeg_save (fun _ => 5000)) faceRGBA book400 =
      (false, "Error validating images: " ++ "cannot write mode RGBA as JPEG") :=
  (c10_validate_images_total (fun _ => .ok 0) faceRGBA book400 (fun _ => 5000)).2
    rfl (by decide) (by decide) (by decide) (by decide)
